import Mathlib

/-!
Verification of the bgp-scout specification against a shallow embedding of
its three source files (main.rs, download.rs, gzip.rs).

Addresses are modelled as natural numbers below the family bit width
(32 for IPv4, 128 for IPv6); machine-integer overflow does not occur in the
modelled code paths because every quantity is bounded by the family width.
-/

namespace BgpScout

/-! ## Network prefixes (semantics of the external `ipnet` crate as used by main.rs)

An `IpNet` mirrors the crate's representation: an address family flag, the
stored address (host bits may be set), and the mask length.  Equality is
structural, exactly as the crate's derived `PartialEq` on (address, length).
-/

def width (v6 : Bool) : Nat := if v6 then 128 else 32

structure IpNet where
  v6 : Bool
  addr : Nat
  len : Nat
deriving DecidableEq, Repr

/-- Number of host bits of the net. -/
def IpNet.hostBits (n : IpNet) : Nat := width n.v6 - n.len

/-- Semantics of `IpNet::network()`: the stored address with host bits cleared. -/
def IpNet.network (n : IpNet) : Nat :=
  n.addr / 2 ^ n.hostBits * 2 ^ n.hostBits

/-- Semantics of `IpNet::broadcast()`: the last address of the range. -/
def IpNet.broadcast (n : IpNet) : Nat :=
  n.network + (2 ^ n.hostBits - 1)

/-- Semantics of `IpNet::contains(&IpNet)`: same family and range inclusion,
computed from network and broadcast addresses; nets of different families
never contain one another. -/
def IpNet.contains (x y : IpNet) : Prop :=
  x.v6 = y.v6 ∧ x.network ≤ y.network ∧ y.broadcast ≤ x.broadcast

instance (x y : IpNet) : Decidable (x.contains y) := by
  unfold IpNet.contains; infer_instance

/-- Membership of a bare numeric address in the net's range. -/
def IpNet.inRange (n : IpNet) (a : Nat) : Prop :=
  n.network ≤ a ∧ a ≤ n.broadcast

instance (n : IpNet) (a : Nat) : Decidable (n.inRange a) := by
  unfold IpNet.inRange; infer_instance

/-- Membership of an address (family tag plus numeric value) in the net:
addresses of different families live in different spaces. -/
def IpNet.covers (n : IpNet) (f : Bool) (a : Nat) : Prop :=
  n.v6 = f ∧ n.inRange a

instance (n : IpNet) (f : Bool) (a : Nat) : Decidable (n.covers f a) := by
  unfold IpNet.covers; infer_instance

/-- Well-formedness guaranteed by the `ipnet` crate for every constructed net:
the mask length fits the family and the address fits the bit width. -/
def IpNet.Valid (n : IpNet) : Prop :=
  n.len ≤ width n.v6 ∧ n.addr < 2 ^ width n.v6

instance (n : IpNet) : Decidable n.Valid := by
  unfold IpNet.Valid; infer_instance

/-- The data-model invariant of the spec: the stored address has all host
bits zero. -/
def IpNet.Normalized (n : IpNet) : Prop :=
  n.addr % 2 ^ n.hostBits = 0

instance (n : IpNet) : Decidable n.Normalized := by
  unfold IpNet.Normalized; infer_instance

/-- The list of subnets of `n` with mask length `L`, in increasing address
order, as yielded by the crate's `subnets` iterator. -/
def subnetsList (n : IpNet) (L : Nat) : List IpNet :=
  (List.range (2 ^ (L - n.len))).map
    (fun k => ⟨n.v6, n.network + k * 2 ^ (width n.v6 - L), L⟩)

/-- Semantics of `IpNet::subnets(new_prefix_len)`: errors when the requested
length is shorter than the net's own length or exceeds the family width. -/
def IpNet.subnets (n : IpNet) (L : Nat) : Option (List IpNet) :=
  if L < n.len ∨ width n.v6 < L then none else some (subnetsList n L)

/-! ## The exclusion engine (`exclude_subnets` in main.rs)

The Rust function iterates the excluded set for each input prefix: the first
excluded entry that fully contains the prefix drops it; the first entry
strictly inside the prefix splits the prefix into all subnets at the entry's
mask length and keeps every piece except the entry itself; otherwise the
prefix passes through unchanged.  The source iterates a `HashSet`, whose
order is unspecified; the model iterates the exclusion list in order, which
realizes one admissible iteration order. -/

def processPfx (excluded : List IpNet) (p : IpNet) : Option (List IpNet) :=
  match excluded with
  | [] => some [p]
  | e :: rest =>
    if e.contains p then some []
    else if p.contains e then
      (p.subnets e.len).map (fun l => l.filter (fun q => decide (q ≠ e)))
    else processPfx rest p

def exclude_subnets (pfxs : List IpNet) (excluded : List IpNet) :
    Option (List IpNet) :=
  (pfxs.mapM (processPfx excluded)).map List.flatten

/-! ## The prefix collector (`scan_prefixes` in main.rs)

A route element carries the announced net, whether it is an announcement
(the `type`/`announce` filter), and the optional origin-ASN list.  The
family filters mirror `add_filter("ip_version", ...)`; the single-origin
branch mirrors the source's `add_filter("origin_asn", "53429")`, which names
the literal ASN 53429 rather than the requested one. -/

structure BgpElem where
  pfx : IpNet
  isAnnounce : Bool
  originAsns : Option (List Nat)
deriving DecidableEq, Repr

def familyOk (v4only v6only : Bool) (e : BgpElem) : Bool :=
  match v4only, v6only with
  | true, false => !e.pfx.v6
  | false, true => e.pfx.v6
  | _, _ => true

def scan_prefixes (elems : List BgpElem) (originAsns : List Nat)
    (v4only v6only : Bool) : List IpNet :=
  let announced := elems.filter (fun e => e.isAnnounce && familyOk v4only v6only e)
  let matched :=
    if originAsns.length = 1 then
      announced.filter (fun e =>
        match e.originAsns with
        | some l => l.contains 53429
        | none => false)
    else
      announced.filter (fun e =>
        match e.originAsns with
        | some l => l.any (fun a => originAsns.contains a)
        | none => false)
  (matched.map (·.pfx)).dedup

/-! ## Parsing of excluded-subnet arguments (`transform_subnets_ipnet` in main.rs)

Modelled from the spec: the textual parser itself lives in the external
CIDR arithmetic library (the spec's "Collaborator interface — CIDR
arithmetic library"); the model below realizes its documented behavior for
IPv4 dotted-quad inputs (four octets, each 0-255 with no leading zeros,
then a slash and a mask length of at most 32).  IPv6 textual forms are
outside the model; every concrete input used below is either a well-formed
IPv4 net or a string no parser accepts. -/

def splitOnChar (c : Char) (l : List Char) : List (List Char) :=
  match l with
  | [] => [[]]
  | x :: xs =>
    let r := splitOnChar c xs
    if x = c then [] :: r
    else
      match r with
      | [] => [[x]]
      | y :: ys => (x :: y) :: ys

def parseDigits (l : List Char) : Option Nat :=
  if l.isEmpty || !(l.all Char.isDigit) then none
  else some (l.foldl (fun n c => n * 10 + (c.toNat - 48)) 0)

def parseOctet (l : List Char) : Option Nat :=
  match l with
  | '0' :: _ :: _ => none
  | _ =>
    match parseDigits l with
    | none => none
    | some v => if v ≤ 255 then some v else none

def ipnet_from_str (s : String) : Option IpNet :=
  match splitOnChar '/' s.toList with
  | [addrPart, lenPart] =>
    (match splitOnChar '.' addrPart with
      | [p1, p2, p3, p4] =>
        (match parseOctet p1, parseOctet p2, parseOctet p3, parseOctet p4,
            parseDigits lenPart with
          | some a, some b, some c, some d, some L =>
            if L ≤ 32 then
              some ⟨false, ((a * 256 + b) * 256 + c) * 256 + d, L⟩
            else none
          | _, _, _, _, _ => none)
      | _ => none)
  | _ => none

/-- Transcription of `transform_subnets_ipnet`: arguments are parsed with
`filter_map(|s| IpNet::from_str(s).ok())`, so strings that fail to parse are
dropped; if nothing parses the function degrades to `None` (no exclusion). -/
def transform_subnets_ipnet (opts : Option (List String)) : Option (List IpNet) :=
  match opts with
  | some subnets =>
    if subnets.isEmpty then none
    else
      let parsed := subnets.filterMap ipnet_from_str
      if parsed.isEmpty then none else some parsed
  | none => none

/-! ## The conditional fetcher (`download_cached` in download.rs)

The filesystem is modelled as the two files the function touches (artifact
and side-car), each a record of the `metadata.modified()` result, whether
`read_to_string` succeeds, and the content.  Times are seconds.  The single
HTTP exchange is a parameter: `none` models a failing `send`, otherwise the
response carries the status; the optional `ETag` header as the byte string
it holds (response header values may carry arbitrary obs-text bytes, so
conversion predicates below model `HeaderValue::from_str` and
`HeaderValue::to_str`); the optional `Last-Modified` header, where `none`
is absent, `some none` is present but not parseable as RFC-2822, and
`some (some t)` denotes the timestamp `t` (rendering and re-parsing of a
valid timestamp are inverse to each other); the body; and success flags
for the fallible local file operations (`bodyWriteOk` for streaming the
body, `etagOpenOk` for opening/creating the side-car in the 304 arm,
`etagWriteOk` for the write/touch of the side-car).  Every
filesystem-visible action and the single network request are recorded in
an ordered event list. -/

structure FileState where
  mtime : Option Nat
  readable : Bool
  content : String
deriving DecidableEq, Repr

structure HttpReq where
  ifNoneMatch : Option String
  ifModifiedSince : Option Nat
deriving DecidableEq, Repr

structure HttpResp where
  status : Nat
  etagHeader : Option String
  lastModified : Option (Option Nat)
  body : String
  bodyWriteOk : Bool
  etagWriteOk : Bool
  etagOpenOk : Bool
deriving DecidableEq, Repr

inductive FsEvent where
  | removeEtag
  | removeArtifact
  | netRequest (req : HttpReq)
  | touchEtag
  | writeArtifact
  | writeEtag
deriving DecidableEq, Repr

/-- How a run of `download_cached` ends: a normal `Ok(bool)` return, a
normal `Err` return, or a panic — the function does not return at all
(the 304 arm calls `etag.to_str().unwrap()`). -/
inductive FetchRet where
  | ok (cached : Bool)
  | error (e : String)
  | panicked (msg : String)
deriving DecidableEq, Repr

structure FetchOutcome where
  ret : FetchRet
  artifact : Option FileState
  etagFile : Option FileState
  events : List FsEvent
deriving Repr

/-- Semantics of `HeaderValue::from_str`: every byte must be a horizontal
tab or lie in 0x20..=0xFF excluding DEL. -/
def isValidHeaderChars (l : List Char) : Bool :=
  l.all (fun c => c = '\t' || (decide (0x20 ≤ c.toNat) && decide (c.toNat ≠ 0x7F)))

/-- Semantics of `HeaderValue::to_str`: succeeds exactly when every byte is
a horizontal tab or visible ASCII (0x20..=0x7E); obs-text bytes, legal in
a parsed response header, make it fail — and the 304 arm of the source
unwraps that result. -/
def isVisibleAscii (s : String) : Bool :=
  s.toList.all (fun c => c = '\t' || (decide (0x20 ≤ c.toNat) && decide (c.toNat < 0x7F)))

/-- First line of the side-car content as `str::lines().next()` yields it:
`none` exactly for the empty string, otherwise the text before the first
newline. -/
def firstLine (s : String) : Option (List Char) :=
  match s.toList with
  | [] => none
  | l => some ((splitOnChar '\n' l).headD [])

/-- Whitespace trimming from both ends, the model of `str::trim`. -/
def trimChars (l : List Char) : List Char :=
  ((l.dropWhile Char.isWhitespace).reverse.dropWhile Char.isWhitespace).reverse

/-- The revalidation token the stale-side-car branch extracts: `none` when
the file cannot be read, has no first line, or the trimmed first line is
not a valid header value — the three cases in which the source sets
`delete_etag_file` and proceeds without a conditional header. -/
def sidecarToken (ef : FileState) : Option String :=
  if !ef.readable then none
  else
    match firstLine ef.content with
    | none => none
    | some line =>
      let tok := trimChars line
      if isValidHeaderChars tok then some tok.asString else none

/-- Response handling common to every path that reaches the network: the
tail of `download_cached` from `client.get(url)...send()` onward.  The
`artifact` and `etagFile` arguments are the file states at the moment of
the request; `evs` are the events already performed.

In the 304 arm with a side-car present, the touch is the fallible
`OpenOptions::open` / `metadata` / `set_len` sequence (failure propagates
through `?` with the file unchanged).  With no side-car and a server
`ETag`, the source first calls `etag.to_str().unwrap()`, which panics on a
non-visible-ASCII value; then `OpenOptions::open(create)` may fail (no
file created), then `writeln!` may fail (file created but left empty).
In the 200 arm, an unparsable `Last-Modified` propagates an error after
the body was written; an `ETag` whose `to_str()?` fails propagates an
error without touching the side-car; a failing `fs::write` of the token
deletes the side-car and fails. -/
def sendAndHandle (now : Nat) (artifact etagFile : Option FileState)
    (req : HttpReq) (resp : Option HttpResp) (evs : List FsEvent) :
    FetchOutcome :=
  let evs := evs ++ [.netRequest req]
  match resp with
  | none => ⟨.error "Failed to send request", artifact, etagFile, evs⟩
  | some r =>
    if r.status = 304 then
      match etagFile with
      | some ef =>
        if r.etagOpenOk && r.etagWriteOk then
          ⟨.ok true, artifact, some { ef with mtime := some now }, evs ++ [.touchEtag]⟩
        else
          ⟨.error "io error touching etag file", artifact, etagFile, evs⟩
      | none =>
        match r.etagHeader with
        | some e =>
          if !(isVisibleAscii e) then
            ⟨.panicked "called unwrap on an Err value: ToStrError",
              artifact, none, evs⟩
          else if !r.etagOpenOk then
            ⟨.error "io error creating etag file", artifact, none, evs⟩
          else if !r.etagWriteOk then
            ⟨.error "io error writing etag file", artifact,
              some ⟨some now, true, ""⟩, evs ++ [.writeEtag]⟩
          else
            ⟨.ok true, artifact, some ⟨some now, true, e ++ "\n"⟩,
              evs ++ [.writeEtag]⟩
        | none => ⟨.ok true, artifact, none, evs⟩
    else if r.status = 200 then
      if !r.bodyWriteOk then
        ⟨.error "Failed to write content to file", none, none,
          evs ++ [.writeArtifact, .removeEtag, .removeArtifact]⟩
      else
        let newMtime : Option Nat :=
          match r.lastModified with
          | some (some t) => some t
          | _ => some now
        let art : Option FileState := some ⟨newMtime, true, r.body⟩
        match r.lastModified with
        | some none =>
          ⟨.error "invalid Last-Modified header", art, etagFile,
            evs ++ [.writeArtifact]⟩
        | _ =>
          match r.etagHeader with
          | some e =>
            if !(isVisibleAscii e) then
              ⟨.error "invalid etag header in response", art, etagFile,
                evs ++ [.writeArtifact]⟩
            else if r.etagWriteOk then
              ⟨.ok false, art, some ⟨some now, true, e⟩,
                evs ++ [.writeArtifact, .writeEtag]⟩
            else
              ⟨.error "Failed to write etag to file", art, none,
                evs ++ [.writeArtifact, .writeEtag, .removeEtag]⟩
          | none => ⟨.ok false, art, etagFile, evs ++ [.writeArtifact]⟩
    else
      ⟨.error ("Failed to download file: HTTP " ++ toString r.status),
        none, none, evs ++ [.removeArtifact, .removeEtag]⟩

/-- Transcription of `download_cached`.  `File::create` on the artifact
(which only truncates before the streamed write whose failure is
`bodyWriteOk`) and `filetime::set_file_mtime` are assumed to succeed:
their failure merely propagates a plain IO error of the same shape as the
modelled ones.  `SystemTime::elapsed` fails (and `?` propagates) when the
side-car mtime lies in the future of the clock. -/
def download_cached (now window : Nat) (artifact etagFile : Option FileState)
    (resp : Option HttpResp) : FetchOutcome :=
  match artifact with
  | some a =>
    match etagFile with
    | some ef =>
      match ef.mtime with
      | some m =>
        if now < m then
          ⟨.error "SystemTimeError", artifact, etagFile, []⟩
        else if now - m ≤ window then
          ⟨.ok true, artifact, etagFile, []⟩
        else
          match sidecarToken ef with
          | some tok =>
            sendAndHandle now artifact etagFile ⟨some tok, none⟩ resp []
          | none =>
            sendAndHandle now artifact none ⟨none, none⟩ resp [.removeEtag]
      | none =>
        sendAndHandle now artifact none ⟨none, none⟩ resp [.removeEtag]
    | none =>
      sendAndHandle now artifact none ⟨none, a.mtime⟩ resp []
  | none =>
    sendAndHandle now none none ⟨none, none⟩ resp [.removeEtag]

/-! ## The decompressor (`decompress_gzip` in gzip.rs)

The run is a straight line of fallible steps: open the input, create the
temporary file, stream the decoder into it, flush, rename over the output.
The environment fixes which step fails; `decodeResult` is the outcome of
`io::copy` through the gzip decoder (the fully decompressed bytes, or a
read/decode/write failure).  `states` records the filesystem after each
step that changes it, so intermediate observations can be reasoned about. -/

structure GzFs where
  output : Option String
  tmp : Option String
deriving DecidableEq, Repr

structure GzEnv where
  input : Option String
  createOk : Bool
  decodeResult : Except String String
  flushOk : Bool
  renameOk : Bool
deriving Repr

structure GzOutcome where
  ret : Except String Unit
  fs : GzFs
  states : List GzFs
deriving Repr

def decompress_gzip (env : GzEnv) (fs0 : GzFs) : GzOutcome :=
  match env.input with
  | none => ⟨.error "failed to open input file", fs0, []⟩
  | some _ =>
    if !env.createOk then ⟨.error "failed to create temporary file", fs0, []⟩
    else
      let fs1 : GzFs := ⟨fs0.output, some ""⟩
      match env.decodeResult with
      | .error e => ⟨.error e, fs1, [fs1]⟩
      | .ok content =>
        let fs2 : GzFs := ⟨fs0.output, some content⟩
        if !env.flushOk then ⟨.error "failed to flush", fs2, [fs1, fs2]⟩
        else if !env.renameOk then ⟨.error "failed to rename", fs2, [fs1, fs2]⟩
        else
          let fs3 : GzFs := ⟨some content, none⟩
          ⟨.ok (), fs3, [fs1, fs2, fs3]⟩

/-! ## Basic facts about the net model -/

lemma IpNet.network_of_normalized {n : IpNet} (h : n.Normalized) :
    n.network = n.addr := by
  unfold IpNet.network
  exact Nat.div_mul_cancel (Nat.dvd_of_mod_eq_zero h)

lemma IpNet.inRange_iff {n : IpNet} (h : n.Normalized) (a : Nat) :
    n.inRange a ↔ n.addr ≤ a ∧ a < n.addr + 2 ^ n.hostBits := by
  unfold IpNet.inRange IpNet.broadcast
  rw [IpNet.network_of_normalized h]
  have := Nat.two_pow_pos n.hostBits
  omega

lemma IpNet.contains_self (n : IpNet) : n.contains n :=
  ⟨rfl, le_refl _, le_refl _⟩

/-! ## Theorems for the claims: concrete evaluations -/

/-- C1: the spec says a record's prefix is retained iff it is an
announcement whose family matches and whose origin-ASN list meets the
requested set, in particular for a single requested origin ASN of any
value.  The source's single-origin branch filters on the literal ASN
53429: an announcement originated by the single requested ASN 65000 is
dropped, while one originated by 53429 is retained though never
requested. -/
theorem C1_hardcoded_origin_asn :
    scan_prefixes [⟨⟨false, 0x0A000000, 8⟩, true, some [65000]⟩] [65000] false false = []
    ∧ scan_prefixes [⟨⟨false, 0x0A000000, 8⟩, true, some [53429]⟩] [65000] false false
        = [⟨false, 0x0A000000, 8⟩]
    ∧ ([65000] : List Nat).length = 1 := by decide

/-- C2 counterexample: for candidate 10.0.0.0/8 and excluded 10.0.0.0/10 —
the excluded strictly contained in the candidate — the engine returns 3
prefixes, exceeding the claimed bound of E.len - C.len = 2, and more than
the 2-element minimal covering of the difference. -/
theorem C2_output_size_counterexample :
    (exclude_subnets [⟨false, 0x0A000000, 8⟩] [⟨false, 0x0A000000, 10⟩]).map List.length
      = some 3
    ∧ ¬ (3 ≤ (10 : Nat) - 8)
    ∧ (⟨false, 0x0A000000, 8⟩ : IpNet).contains ⟨false, 0x0A000000, 10⟩
    ∧ ¬ (⟨false, 0x0A000000, 10⟩ : IpNet).contains ⟨false, 0x0A000000, 8⟩ := by decide

/-- C3 counterexample: for candidate 10.0.0.0/16 and excluded 10.0.0.0/8
(the excluded strictly contains the candidate, so it is not contained in
it), the engine returns the empty list; the claim's reconstruction formula
adds nothing in this case, yet the candidate's range is nonempty — the
address 10.0.0.0 is covered by the candidate but by no output prefix. -/
theorem C3_reconstruction_counterexample :
    exclude_subnets [⟨false, 0x0A000000, 16⟩] [⟨false, 0x0A000000, 8⟩] = some []
    ∧ ¬ (⟨false, 0x0A000000, 16⟩ : IpNet).contains ⟨false, 0x0A000000, 8⟩
    ∧ (⟨false, 0x0A000000, 16⟩ : IpNet).covers false 0x0A000000 := by decide

/-- C4: the spec says every excluded prefix contained in an input prefix is
removed.  The source splits each input prefix by the first interacting
excluded entry only and never revisits the pieces, so with input
10.0.0.0/8 and excluded {10.0.0.0/16, 10.1.0.0/16} the output retains the
other excluded /16 verbatim — under either iteration order of the set —
and its addresses (e.g. 10.1.0.0) appear in the output's range. -/
theorem C4_second_exclusion_not_removed :
    (∃ r, exclude_subnets [⟨false, 0x0A000000, 8⟩]
        [⟨false, 0x0A000000, 16⟩, ⟨false, 0x0A010000, 16⟩] = some r
      ∧ (⟨false, 0x0A010000, 16⟩ : IpNet) ∈ r)
    ∧ (∃ r, exclude_subnets [⟨false, 0x0A000000, 8⟩]
        [⟨false, 0x0A010000, 16⟩, ⟨false, 0x0A000000, 16⟩] = some r
      ∧ (⟨false, 0x0A000000, 16⟩ : IpNet) ∈ r)
    ∧ (⟨false, 0x0A010000, 16⟩ : IpNet).covers false 0x0A010000 :=
  ⟨⟨_, rfl, by decide⟩, ⟨_, rfl, by decide⟩, by decide⟩

/-- C5 counterexample: an excluded-subnet argument that fails to parse is
silently dropped by `transform_subnets_ipnet` — the run proceeds with the
remaining arguments and no error is raised. -/
theorem C5_silent_drop_counterexample :
    ipnet_from_str "bogus" = none
    ∧ transform_subnets_ipnet (some ["10.0.0.0/8", "bogus"])
        = some [⟨false, 0x0A000000, 8⟩] := by decide

/-! ## Theorems for the fetcher claims -/

/-- C6: when the artifact exists, the side-car exists, and the side-car's
age is within the revalidation window, the fetch reports CACHED
immediately: the result is `Ok true`, no event occurs (in particular no
network request, for any behavior of the network), and both files are left
exactly as found — hence repeated such calls always behave this way. -/
theorem C6_fresh_sidecar_cached (now window : Nat) (a ef : FileState) (m : Nat)
    (resp : Option HttpResp) (hm : ef.mtime = some m) (h1 : m ≤ now)
    (h2 : now - m ≤ window) :
    download_cached now window (some a) (some ef) resp
      = ⟨.ok true, some a, some ef, []⟩ := by
  simp [download_cached, hm, Nat.not_lt.mpr h1, h2]

theorem C6_fresh_sidecar_cached_witness :
    (⟨some 950, true, "tok"⟩ : FileState).mtime = some 950
    ∧ download_cached 1000 100 (some ⟨some 50, true, "art"⟩)
        (some ⟨some 950, true, "tok"⟩) none
      = ⟨.ok true, some ⟨some 50, true, "art"⟩, some ⟨some 950, true, "tok"⟩, []⟩ :=
  ⟨rfl, C6_fresh_sidecar_cached 1000 100 ⟨some 50, true, "art"⟩
    ⟨some 950, true, "tok"⟩ 950 none rfl (by decide) (by decide)⟩

/-- C10: when the artifact and side-car both exist and the side-car's
modification time lies in the future of the clock, `SystemTime::elapsed`
fails and `?` propagates: the fetch returns an error with no network
request and no file change, instead of treating the side-car as fresh or
stale. -/
theorem C10_future_mtime_error (now window : Nat) (a ef : FileState) (m : Nat)
    (resp : Option HttpResp) (hm : ef.mtime = some m) (h : now < m) :
    download_cached now window (some a) (some ef) resp
      = ⟨.error "SystemTimeError", some a, some ef, []⟩ := by
  simp [download_cached, hm, h]

theorem C10_future_mtime_error_witness :
    (⟨some 2000, true, "tok"⟩ : FileState).mtime = some 2000
    ∧ download_cached 1000 100 (some ⟨some 50, true, "art"⟩)
        (some ⟨some 2000, true, "tok"⟩) none
      = ⟨.error "SystemTimeError", some ⟨some 50, true, "art"⟩,
          some ⟨some 2000, true, "tok"⟩, []⟩ :=
  ⟨rfl, C10_future_mtime_error 1000 100 ⟨some 50, true, "art"⟩
    ⟨some 2000, true, "tok"⟩ 2000 none rfl (by decide)⟩

/-- C8 counterexample: on an HTTP 500 response the source deletes the
artifact first and the side-car second — the reverse of the claimed
ordering "side-car before or together with declaring the artifact
invalid".  In the run below the artifact-removal event precedes the
side-car-removal event. -/
theorem C8_deletion_order_counterexample :
    download_cached 1000 10 (some ⟨some 50, true, "old"⟩)
        (some ⟨some 100, true, "tok123"⟩) (some ⟨500, none, none, "", true, true, true⟩)
      = ⟨.error "Failed to download file: HTTP 500", none, none,
          [.netRequest ⟨some "tok123", none⟩, .removeArtifact, .removeEtag]⟩ := by
  rfl

/-- C8 amended: on any response status other than 200 and 304, the fetch
deletes both the artifact and the side-car — the artifact first, then the
side-car — and fails with the status code embedded in the error message.
Stated for runs where both files exist and the stale side-car holds a
valid token, so both deletions are observable. -/
theorem C8_error_status_deletes_both (now window : Nat) (a ef : FileState)
    (m : Nat) (tok : String) (r : HttpResp) (hm : ef.mtime = some m)
    (h1 : m ≤ now) (h2 : window < now - m) (htok : sidecarToken ef = some tok)
    (h304 : r.status ≠ 304) (h200 : r.status ≠ 200) :
    download_cached now window (some a) (some ef) (some r)
      = ⟨.error ("Failed to download file: HTTP " ++ toString r.status),
          none, none,
          [.netRequest ⟨some tok, none⟩, .removeArtifact, .removeEtag]⟩ := by
  simp [download_cached, hm, Nat.not_lt.mpr h1, Nat.not_le.mpr h2, htok,
    sendAndHandle, h304, h200]

theorem C8_error_status_deletes_both_witness :
    sidecarToken ⟨some 100, true, "tok123"⟩ = some "tok123"
    ∧ download_cached 1000 10 (some ⟨some 50, true, "old"⟩)
        (some ⟨some 100, true, "tok123"⟩) (some ⟨500, none, none, "", true, true, true⟩)
      = ⟨.error ("Failed to download file: HTTP " ++ toString (500 : Nat)),
          none, none,
          [.netRequest ⟨some "tok123", none⟩, .removeArtifact, .removeEtag]⟩ :=
  ⟨by decide, C8_error_status_deletes_both 1000 10 ⟨some 50, true, "old"⟩
    ⟨some 100, true, "tok123"⟩ 100 "tok123" ⟨500, none, none, "", true, true, true⟩
    rfl (by decide) (by decide) (by decide) (by decide) (by decide)⟩

/-- C7 counterexample: with an unreadable stale side-car the fetch deletes
the side-car and sends an unconditional request (no If-Modified-Since),
whereas the run with no side-car at all attaches If-Modified-Since derived
from the artifact's mtime — so it does not proceed "exactly as if no
side-car had existed". -/
theorem C7_not_as_if_absent_counterexample :
    (download_cached 1000 10 (some ⟨some 50, true, "gz"⟩)
        (some ⟨some 100, false, ""⟩) (some ⟨200, none, none, "body", true, true, true⟩)).events
      = [.removeEtag, .netRequest ⟨none, none⟩, .writeArtifact]
    ∧ (download_cached 1000 10 (some ⟨some 50, true, "gz"⟩)
        none (some ⟨200, none, none, "body", true, true, true⟩)).events
      = [.netRequest ⟨none, some 50⟩, .writeArtifact]
    ∧ (⟨none, none⟩ : HttpReq) ≠ ⟨none, some 50⟩ :=
  ⟨rfl, rfl, by decide⟩

/-- C9: every run of the decompressor either fails with the previous
output untouched or succeeds with the output replaced by the complete
decompressed content; moreover every intermediate filesystem state shows
the output either as it was before the run or as the final complete file —
never truncated. -/
theorem C9_decompress_atomic (env : GzEnv) (fs0 : GzFs) :
    ((decompress_gzip env fs0).ret = .ok () →
      ∃ c, env.decodeResult = .ok c ∧ (decompress_gzip env fs0).fs.output = some c)
    ∧ ((decompress_gzip env fs0).ret ≠ .ok () →
      (decompress_gzip env fs0).fs.output = fs0.output)
    ∧ (∀ st ∈ (decompress_gzip env fs0).states,
      st.output = fs0.output ∨ st.output = (decompress_gzip env fs0).fs.output) := by
  obtain ⟨inp, cok, dres, fok, rok⟩ := env
  rcases inp with _ | s <;> rcases cok <;> rcases dres with e | c <;>
    rcases fok <;> rcases rok <;> simp [decompress_gzip]

theorem C9_decompress_atomic_witness :
    (decompress_gzip ⟨some "gz", true, .error "corrupt deflate stream", true, true⟩
        ⟨some "old", none⟩).fs.output = (⟨some "old", none⟩ : GzFs).output :=
  (C9_decompress_atomic ⟨some "gz", true, .error "corrupt deflate stream", true, true⟩
    ⟨some "old", none⟩).2.1 (fun h => nomatch h)

/-! ## Support for the amended C7 -/

lemma sendAndHandle_events_shape (now : Nat) (artifact etagFile : Option FileState)
    (req : HttpReq) (resp : Option HttpResp) (evs : List FsEvent) :
    ∃ extra, (sendAndHandle now artifact etagFile req resp evs).events
      = evs ++ [.netRequest req] ++ extra := by
  rcases resp with _ | r
  · exact ⟨[], by simp [sendAndHandle]⟩
  · obtain ⟨st, etagH, lastMod, body, bwOk, ewOk, eoOk⟩ := r
    by_cases h304 : st = 304
    · rcases etagFile with _ | ef
      · rcases etagH with _ | e
        · exact ⟨[], by simp [sendAndHandle, h304]⟩
        · rcases hva : isVisibleAscii e
          · exact ⟨[], by simp [sendAndHandle, h304, hva]⟩
          · rcases eoOk
            · exact ⟨[], by simp [sendAndHandle, h304, hva]⟩
            · rcases ewOk
              · exact ⟨[.writeEtag], by simp [sendAndHandle, h304, hva]⟩
              · exact ⟨[.writeEtag], by simp [sendAndHandle, h304, hva]⟩
      · rcases eoOk <;> rcases ewOk
        · exact ⟨[], by simp [sendAndHandle, h304]⟩
        · exact ⟨[], by simp [sendAndHandle, h304]⟩
        · exact ⟨[], by simp [sendAndHandle, h304]⟩
        · exact ⟨[.touchEtag], by simp [sendAndHandle, h304]⟩
    · by_cases h200 : st = 200
      · rcases bwOk
        · exact ⟨[.writeArtifact, .removeEtag, .removeArtifact],
            by simp [sendAndHandle, h304, h200]⟩
        · rcases lastMod with _ | lm
          · rcases etagH with _ | e
            · exact ⟨[.writeArtifact], by simp [sendAndHandle, h304, h200]⟩
            · rcases hva : isVisibleAscii e
              · exact ⟨[.writeArtifact], by simp [sendAndHandle, h304, h200, hva]⟩
              · rcases ewOk
                · exact ⟨[.writeArtifact, .writeEtag, .removeEtag],
                    by simp [sendAndHandle, h304, h200, hva]⟩
                · exact ⟨[.writeArtifact, .writeEtag],
                    by simp [sendAndHandle, h304, h200, hva]⟩
          · rcases lm with _ | t
            · exact ⟨[.writeArtifact], by simp [sendAndHandle, h304, h200]⟩
            · rcases etagH with _ | e
              · exact ⟨[.writeArtifact], by simp [sendAndHandle, h304, h200]⟩
              · rcases hva : isVisibleAscii e
                · exact ⟨[.writeArtifact], by simp [sendAndHandle, h304, h200, hva]⟩
                · rcases ewOk
                  · exact ⟨[.writeArtifact, .writeEtag, .removeEtag],
                      by simp [sendAndHandle, h304, h200, hva]⟩
                  · exact ⟨[.writeArtifact, .writeEtag],
                      by simp [sendAndHandle, h304, h200, hva]⟩
      · exact ⟨[.removeArtifact, .removeEtag], by simp [sendAndHandle, h304, h200]⟩

lemma sendAndHandle_error_kinds (now : Nat) (artifact etagFile : Option FileState)
    (req : HttpReq) (resp : Option HttpResp) (evs : List FsEvent) :
    ∀ e, (sendAndHandle now artifact etagFile req resp evs).ret = .error e →
      e ∈ ["Failed to send request", "Failed to write content to file",
        "Failed to write etag to file", "io error touching etag file",
        "io error creating etag file", "io error writing etag file",
        "invalid Last-Modified header", "invalid etag header in response"]
      ∨ ∃ st : Nat, e = "Failed to download file: HTTP " ++ toString st := by
  intro e h
  rcases resp with _ | r
  · simp [sendAndHandle] at h
    subst h
    exact .inl (by simp)
  · obtain ⟨st, etagH, lastMod, body, bwOk, ewOk, eoOk⟩ := r
    by_cases h304 : st = 304
    · rcases etagFile with _ | ef
      · rcases etagH with _ | tk
        · simp [sendAndHandle, h304] at h
        · rcases hva : isVisibleAscii tk
          · simp [sendAndHandle, h304, hva] at h
          · rcases eoOk
            · simp [sendAndHandle, h304, hva] at h
              subst h
              exact .inl (by simp)
            · rcases ewOk
              · simp [sendAndHandle, h304, hva] at h
                subst h
                exact .inl (by simp)
              · simp [sendAndHandle, h304, hva] at h
      · rcases eoOk <;> rcases ewOk <;> simp [sendAndHandle, h304] at h
        all_goals (subst h; exact .inl (by simp))
    · by_cases h200 : st = 200
      · rcases bwOk
        · simp [sendAndHandle, h304, h200] at h
          subst h
          exact .inl (by simp)
        · rcases lastMod with _ | lm
          · rcases etagH with _ | tk
            · simp [sendAndHandle, h304, h200] at h
            · rcases hva : isVisibleAscii tk
              · simp [sendAndHandle, h304, h200, hva] at h
                subst h
                exact .inl (by simp)
              · rcases ewOk
                · simp [sendAndHandle, h304, h200, hva] at h
                  subst h
                  exact .inl (by simp)
                · simp [sendAndHandle, h304, h200, hva] at h
          · rcases lm with _ | t
            · simp [sendAndHandle, h304, h200] at h
              subst h
              exact .inl (by simp)
            · rcases etagH with _ | tk
              · simp [sendAndHandle, h304, h200] at h
              · rcases hva : isVisibleAscii tk
                · simp [sendAndHandle, h304, h200, hva] at h
                  subst h
                  exact .inl (by simp)
                · rcases ewOk
                  · simp [sendAndHandle, h304, h200, hva] at h
                    subst h
                    exact .inl (by simp)
                  · simp [sendAndHandle, h304, h200, hva] at h
      · simp [sendAndHandle, h304, h200] at h
        subst h
        exact .inr ⟨st, rfl⟩

lemma sendAndHandle_panic_kinds (now : Nat) (artifact etagFile : Option FileState)
    (req : HttpReq) (resp : Option HttpResp) (evs : List FsEvent) :
    ∀ msg, (sendAndHandle now artifact etagFile req resp evs).ret = .panicked msg →
      ∃ r etag, resp = some r ∧ r.status = 304 ∧ r.etagHeader = some etag
        ∧ isVisibleAscii etag = false := by
  intro msg h
  rcases resp with _ | r
  · simp [sendAndHandle] at h
  · obtain ⟨st, etagH, lastMod, body, bwOk, ewOk, eoOk⟩ := r
    by_cases h304 : st = 304
    · rcases etagFile with _ | ef
      · rcases etagH with _ | tk
        · simp [sendAndHandle, h304] at h
        · rcases hva : isVisibleAscii tk
          · exact ⟨_, tk, rfl, h304, rfl, hva⟩
          · rcases eoOk <;> rcases ewOk <;> simp [sendAndHandle, h304, hva] at h
      · rcases eoOk <;> rcases ewOk <;> simp [sendAndHandle, h304] at h
    · by_cases h200 : st = 200
      · rcases bwOk
        · simp [sendAndHandle, h304, h200] at h
        · rcases lastMod with _ | lm
          · rcases etagH with _ | tk
            · simp [sendAndHandle, h304, h200] at h
            · rcases hva : isVisibleAscii tk <;> rcases ewOk <;>
                simp [sendAndHandle, h304, h200, hva] at h
          · rcases lm with _ | t
            · simp [sendAndHandle, h304, h200] at h
            · rcases etagH with _ | tk
              · simp [sendAndHandle, h304, h200] at h
              · rcases hva : isVisibleAscii tk <;> rcases ewOk <;>
                  simp [sendAndHandle, h304, h200, hva] at h
      · simp [sendAndHandle, h304, h200] at h

/-- C7 amended: with the artifact present and a stale side-car whose token
cannot be extracted (unreadable, empty, or not a valid header value), the
fetch deletes the side-car and proceeds unconditionally — the request
carries neither If-None-Match nor If-Modified-Since — it never returns a
corruption error (every returned error is a transport or local-IO
failure), and its outcome does not depend on the corrupt side-car's
content; it is not panic-free, but the only panic it can hit is the 304
handler unwrapping a response ETag header that is not visible ASCII. -/
theorem C7_corrupt_sidecar_unconditional (now window : Nat) (a ef ef₂ : FileState)
    (m m₂ : Nat) (resp : Option HttpResp)
    (hm : ef.mtime = some m) (h1 : m ≤ now) (h2 : window < now - m)
    (htok : sidecarToken ef = none)
    (hm₂ : ef₂.mtime = some m₂) (h1₂ : m₂ ≤ now) (h2₂ : window < now - m₂)
    (htok₂ : sidecarToken ef₂ = none) :
    (download_cached now window (some a) (some ef) resp
      = download_cached now window (some a) (some ef₂) resp)
    ∧ ((download_cached now window (some a) (some ef) resp).events.take 2
      = [.removeEtag, .netRequest ⟨none, none⟩])
    ∧ (∀ e, (download_cached now window (some a) (some ef) resp).ret = .error e →
      e ∈ ["Failed to send request", "Failed to write content to file",
        "Failed to write etag to file", "io error touching etag file",
        "io error creating etag file", "io error writing etag file",
        "invalid Last-Modified header", "invalid etag header in response"]
      ∨ ∃ st : Nat, e = "Failed to download file: HTTP " ++ toString st)
    ∧ (∀ msg,
      (download_cached now window (some a) (some ef) resp).ret = .panicked msg →
      ∃ r etag, resp = some r ∧ r.status = 304 ∧ r.etagHeader = some etag
        ∧ isVisibleAscii etag = false) := by
  have hred : download_cached now window (some a) (some ef) resp
      = sendAndHandle now (some a) none ⟨none, none⟩ resp [.removeEtag] := by
    simp [download_cached, hm, Nat.not_lt.mpr h1, Nat.not_le.mpr h2, htok]
  have hred₂ : download_cached now window (some a) (some ef₂) resp
      = sendAndHandle now (some a) none ⟨none, none⟩ resp [.removeEtag] := by
    simp [download_cached, hm₂, Nat.not_lt.mpr h1₂, Nat.not_le.mpr h2₂, htok₂]
  refine ⟨hred.trans hred₂.symm, ?_, ?_, ?_⟩
  · rw [hred]
    obtain ⟨extra, hext⟩ :=
      sendAndHandle_events_shape now (some a) none ⟨none, none⟩ resp [.removeEtag]
    rw [hext]
    rfl
  · rw [hred]
    exact sendAndHandle_error_kinds now (some a) none ⟨none, none⟩ resp [.removeEtag]
  · rw [hred]
    exact sendAndHandle_panic_kinds now (some a) none ⟨none, none⟩ resp [.removeEtag]

theorem C7_corrupt_sidecar_unconditional_witness :
    sidecarToken ⟨some 100, false, ""⟩ = none
    ∧ sidecarToken ⟨some 200, true, "ba\x01d"⟩ = none
    ∧ isVisibleAscii "ba\x80d" = false
    ∧ (download_cached 1000 10 (some ⟨some 50, true, "gz"⟩)
        (some ⟨some 100, false, ""⟩)
        (some ⟨304, some "ba\x80d", none, "", true, true, true⟩)).ret
      = .panicked "called unwrap on an Err value: ToStrError"
    ∧ (download_cached 1000 10 (some ⟨some 50, true, "gz"⟩)
          (some ⟨some 100, false, ""⟩)
          (some ⟨304, some "ba\x80d", none, "", true, true, true⟩)
        = download_cached 1000 10 (some ⟨some 50, true, "gz"⟩)
          (some ⟨some 200, true, "ba\x01d"⟩)
          (some ⟨304, some "ba\x80d", none, "", true, true, true⟩))
    ∧ ((download_cached 1000 10 (some ⟨some 50, true, "gz"⟩)
          (some ⟨some 100, false, ""⟩)
          (some ⟨304, some "ba\x80d", none, "", true, true, true⟩)).events.take 2
        = [.removeEtag, .netRequest ⟨none, none⟩]) :=
  ⟨by decide, by decide, by decide, by rfl,
    (C7_corrupt_sidecar_unconditional 1000 10 ⟨some 50, true, "gz"⟩
      ⟨some 100, false, ""⟩ ⟨some 200, true, "ba\x01d"⟩ 100 200
      (some ⟨304, some "ba\x80d", none, "", true, true, true⟩)
      rfl (by decide) (by decide) (by decide) rfl (by decide) (by decide)
      (by decide)).1,
    (C7_corrupt_sidecar_unconditional 1000 10 ⟨some 50, true, "gz"⟩
      ⟨some 100, false, ""⟩ ⟨some 200, true, "ba\x01d"⟩ 100 200
      (some ⟨304, some "ba\x80d", none, "", true, true, true⟩)
      rfl (by decide) (by decide) (by decide) rfl (by decide) (by decide)
      (by decide)).2.1⟩

/-! ## Support for the amended C5 -/

lemma filterMap_filter_ne (ss : List String) (s : String)
    (h : ipnet_from_str s = none) :
    (ss.filter (fun t => decide (t ≠ s))).filterMap ipnet_from_str
      = ss.filterMap ipnet_from_str := by
  induction ss with
  | nil => rfl
  | cons t ts ih =>
    rw [List.filter_cons]
    by_cases ht : t = s
    · rw [if_neg (by simp [ht]), ih, List.filterMap_cons, ht, h]
    · rw [if_pos (by simp [ht]), List.filterMap_cons, List.filterMap_cons]
      rcases hft : ipnet_from_str t with _ | b
      · exact ih
      · exact congrArg (List.cons b) ih

/-- C5 amended: an excluded-subnet argument string that fails to parse is
silently dropped: the run proceeds exactly as if the argument had not been
given (and when no argument parses, exclusion is skipped entirely); no
error is raised for it. -/
theorem C5_unparsable_arg_dropped (ss : List String) (s : String)
    (h : ipnet_from_str s = none) :
    transform_subnets_ipnet (some ss)
      = transform_subnets_ipnet (some (ss.filter (fun t => decide (t ≠ s)))) := by
  have hfm := filterMap_filter_ne ss s h
  match ss with
  | [] => rfl
  | t :: ts =>
    rcases h1 : (t :: ts).filter (fun x => decide (x ≠ s)) with _ | ⟨u, us⟩
    · have hparsed : (t :: ts).filterMap ipnet_from_str = [] := by
        rw [← hfm, h1]
        rfl
      simp only [transform_subnets_ipnet]
      rw [hparsed]
      rfl
    · rw [h1] at hfm
      simp only [transform_subnets_ipnet]
      rw [hfm]
      rfl

theorem C5_unparsable_arg_dropped_witness :
    ipnet_from_str "bogus" = none
    ∧ transform_subnets_ipnet (some ["10.0.0.0/8", "bogus"])
      = transform_subnets_ipnet
          (some (["10.0.0.0/8", "bogus"].filter (fun t => decide (t ≠ "bogus")))) :=
  ⟨by decide, C5_unparsable_arg_dropped ["10.0.0.0/8", "bogus"] "bogus" (by decide)⟩

/-! ## Support for the amended C2 and C3: splitting a net into subnets -/

lemma pow_mul_pow_sub (w cl L : Nat) (h1 : cl ≤ L) (h2 : L ≤ w) :
    2 ^ (L - cl) * 2 ^ (w - L) = 2 ^ (w - cl) := by
  rw [← pow_add]
  congr 1
  omega

lemma div_interval {s q a : Nat} (hs : 0 < s) :
    a / s = q ↔ q * s ≤ a ∧ a < (q + 1) * s := by
  constructor
  · rintro rfl
    have hdm := Nat.div_add_mod a s
    have hmod := Nat.mod_lt a hs
    rw [Nat.mul_comm s (a / s)] at hdm
    rw [Nat.succ_mul]
    omega
  · rintro ⟨h1, h2⟩
    exact Nat.div_eq_of_lt_le h1 h2

lemma mem_subnetsList {C : IpNet} {L : Nat} (hCn : C.Normalized) (q : IpNet) :
    q ∈ subnetsList C L ↔ ∃ k, k < 2 ^ (L - C.len)
      ∧ q = ⟨C.v6, C.addr + k * 2 ^ (width C.v6 - L), L⟩ := by
  unfold subnetsList
  rw [IpNet.network_of_normalized hCn]
  constructor
  · intro hq
    obtain ⟨k, hk, he⟩ := List.mem_map.mp hq
    exact ⟨k, List.mem_range.mp hk, he.symm⟩
  · rintro ⟨k, hk, rfl⟩
    exact List.mem_map.mpr ⟨k, List.mem_range.mpr hk, rfl⟩

lemma subnet_normalized {C : IpNet} {L k : Nat} (hCn : C.Normalized) (hCL : C.len ≤ L) :
    (⟨C.v6, C.addr + k * 2 ^ (width C.v6 - L), L⟩ : IpNet).Normalized := by
  unfold IpNet.Normalized IpNet.hostBits at *
  dsimp only
  have hd1 : 2 ^ (width C.v6 - L) ∣ C.addr :=
    dvd_trans (pow_dvd_pow 2 (by omega)) (Nat.dvd_of_mod_eq_zero hCn)
  have hd2 : 2 ^ (width C.v6 - L) ∣ k * 2 ^ (width C.v6 - L) := dvd_mul_left _ _
  exact Nat.mod_eq_zero_of_dvd (dvd_add hd1 hd2)

lemma subnet_inRange_iff {C : IpNet} {L k : Nat} (hCn : C.Normalized)
    (hCL : C.len ≤ L) (a : Nat) :
    (⟨C.v6, C.addr + k * 2 ^ (width C.v6 - L), L⟩ : IpNet).inRange a
      ↔ C.addr + k * 2 ^ (width C.v6 - L) ≤ a
        ∧ a < C.addr + (k + 1) * 2 ^ (width C.v6 - L) := by
  rw [IpNet.inRange_iff (subnet_normalized hCn hCL)]
  dsimp only [IpNet.hostBits]
  have := Nat.two_pow_pos (width C.v6 - L)
  rw [Nat.succ_mul]
  omega

lemma inRange_C_iff {C : IpNet} {L : Nat} (hCn : C.Normalized) (hCL : C.len ≤ L)
    (hLw : L ≤ width C.v6) (a : Nat) :
    C.inRange a ↔ C.addr ≤ a
      ∧ a < C.addr + 2 ^ (L - C.len) * 2 ^ (width C.v6 - L) := by
  rw [IpNet.inRange_iff hCn]
  unfold IpNet.hostBits
  rw [← pow_mul_pow_sub (width C.v6) C.len L hCL hLw]

lemma subnet_of_inRange {C : IpNet} {L : Nat} (hCn : C.Normalized) (hCL : C.len ≤ L)
    (hLw : L ≤ width C.v6) {a : Nat} (ha : C.inRange a) :
    ∃ k, k < 2 ^ (L - C.len)
      ∧ (⟨C.v6, C.addr + k * 2 ^ (width C.v6 - L), L⟩ : IpNet).inRange a := by
  have hs := Nat.two_pow_pos (width C.v6 - L)
  rw [inRange_C_iff hCn hCL hLw] at ha
  refine ⟨(a - C.addr) / 2 ^ (width C.v6 - L), ?_, ?_⟩
  · rw [Nat.div_lt_iff_lt_mul hs]
    omega
  · rw [subnet_inRange_iff hCn hCL]
    have hdiv := (div_interval hs
      (q := (a - C.addr) / 2 ^ (width C.v6 - L)) (a := a - C.addr)).mp rfl
    rw [Nat.succ_mul] at hdiv
    rw [Nat.succ_mul]
    omega

lemma subnet_inRange_unique {C : IpNet} {L k k' : Nat} (hCn : C.Normalized)
    (hCL : C.len ≤ L) {a : Nat}
    (h1 : (⟨C.v6, C.addr + k * 2 ^ (width C.v6 - L), L⟩ : IpNet).inRange a)
    (h2 : (⟨C.v6, C.addr + k' * 2 ^ (width C.v6 - L), L⟩ : IpNet).inRange a) :
    k = k' := by
  rw [subnet_inRange_iff hCn hCL] at h1 h2
  have hs := Nat.two_pow_pos (width C.v6 - L)
  have e1 : (a - C.addr) / 2 ^ (width C.v6 - L) = k := by
    rw [div_interval hs, Nat.succ_mul]
    rw [Nat.succ_mul] at h1
    omega
  have e2 : (a - C.addr) / 2 ^ (width C.v6 - L) = k' := by
    rw [div_interval hs, Nat.succ_mul]
    rw [Nat.succ_mul] at h2
    omega
  omega

lemma subnet_sub_C {C : IpNet} {L k : Nat} (hCn : C.Normalized) (hCL : C.len ≤ L)
    (hLw : L ≤ width C.v6) (hk : k < 2 ^ (L - C.len)) {a : Nat}
    (h : (⟨C.v6, C.addr + k * 2 ^ (width C.v6 - L), L⟩ : IpNet).inRange a) :
    C.inRange a := by
  rw [subnet_inRange_iff hCn hCL] at h
  rw [inRange_C_iff hCn hCL hLw]
  have hmul : (k + 1) * 2 ^ (width C.v6 - L)
      ≤ 2 ^ (L - C.len) * 2 ^ (width C.v6 - L) :=
    Nat.mul_le_mul_right _ hk
  omega

lemma subnet_inj {C : IpNet} {L k k' : Nat}
    (h : (⟨C.v6, C.addr + k * 2 ^ (width C.v6 - L), L⟩ : IpNet)
       = ⟨C.v6, C.addr + k' * 2 ^ (width C.v6 - L), L⟩) : k = k' := by
  have hs := Nat.two_pow_pos (width C.v6 - L)
  have ha := congrArg IpNet.addr h
  dsimp at ha
  have h2 : k * 2 ^ (width C.v6 - L) = k' * 2 ^ (width C.v6 - L) := by omega
  exact Nat.eq_of_mul_eq_mul_right hs h2

lemma subnetsList_nodup (C : IpNet) (L : Nat) : (subnetsList C L).Nodup := by
  unfold subnetsList
  refine List.Nodup.map ?_ (List.nodup_range _)
  intro k k' h
  have ha := congrArg IpNet.addr h
  dsimp at ha
  have hs := Nat.two_pow_pos (width C.v6 - L)
  have h2 : k * 2 ^ (width C.v6 - L) = k' * 2 ^ (width C.v6 - L) := by omega
  exact Nat.eq_of_mul_eq_mul_right hs h2

lemma subnetsList_pairwise_disjoint {C : IpNet} {L : Nat} (hCn : C.Normalized)
    (hCL : C.len ≤ L) :
    (subnetsList C L).Pairwise
      (fun q q' => ∀ f a, ¬ (q.covers f a ∧ q'.covers f a)) := by
  unfold subnetsList
  refine List.Pairwise.map _ ?_ (List.pairwise_lt_range _)
  rintro k k' hkk' f a ⟨h1, h2⟩
  rw [IpNet.network_of_normalized hCn] at h1 h2
  exact absurd (subnet_inRange_unique hCn hCL h1.2 h2.2) (Nat.ne_of_lt hkk')

lemma excluded_is_subnet {C E : IpNet} (hCn : C.Normalized) (hEn : E.Normalized)
    (hCw : C.len ≤ width C.v6) (hEw : E.len ≤ width E.v6)
    (hc : C.contains E) (_hnc : ¬ E.contains C) :
    C.len ≤ E.len ∧ E.len ≤ width C.v6
      ∧ ∃ kE, kE < 2 ^ (E.len - C.len)
        ∧ E = ⟨C.v6, C.addr + kE * 2 ^ (width C.v6 - E.len), E.len⟩ := by
  obtain ⟨hf, hnet, hbro⟩ := hc
  have hw : width E.v6 = width C.v6 := by rw [hf]
  rw [IpNet.network_of_normalized hCn, IpNet.network_of_normalized hEn] at hnet
  unfold IpNet.broadcast at hbro
  rw [IpNet.network_of_normalized hCn, IpNet.network_of_normalized hEn] at hbro
  have hCs : C.hostBits = width C.v6 - C.len := rfl
  have hEs : E.hostBits = width C.v6 - E.len := by
    rw [show E.hostBits = width E.v6 - E.len from rfl, hw]
  rw [hCs, hEs] at hbro
  have hpE := Nat.two_pow_pos (width C.v6 - E.len)
  have hpC := Nat.two_pow_pos (width C.v6 - C.len)
  have hlen : C.len ≤ E.len := by
    by_contra hlt
    push_neg at hlt
    have hpow : 2 ^ (width C.v6 - C.len) < 2 ^ (width C.v6 - E.len) := by
      refine (Nat.pow_lt_pow_iff_right (by omega)).mpr ?_
      rw [← hw]
      omega
    omega
  have hEw' : E.len ≤ width C.v6 := by
    rw [← hw]
    exact hEw
  refine ⟨hlen, hEw', ?_⟩
  have hsd : 2 ^ (width C.v6 - E.len) ∣ E.addr := by
    have hE0 : 2 ^ E.hostBits ∣ E.addr := Nat.dvd_of_mod_eq_zero hEn
    rwa [hEs] at hE0
  have hcd : 2 ^ (width C.v6 - E.len) ∣ C.addr := by
    have hexp : width C.v6 - E.len ≤ width C.v6 - C.len := by omega
    exact dvd_trans (pow_dvd_pow 2 hexp) (Nat.dvd_of_mod_eq_zero hCn)
  have hdelta : 2 ^ (width C.v6 - E.len) ∣ (E.addr - C.addr) := Nat.dvd_sub' hsd hcd
  have hks : (E.addr - C.addr) / 2 ^ (width C.v6 - E.len) * 2 ^ (width C.v6 - E.len)
      = E.addr - C.addr := Nat.div_mul_cancel hdelta
  have hNs : 2 ^ (E.len - C.len) * 2 ^ (width C.v6 - E.len)
      = 2 ^ (width C.v6 - C.len) := pow_mul_pow_sub _ _ _ hlen hEw'
  refine ⟨(E.addr - C.addr) / 2 ^ (width C.v6 - E.len), ?_, ?_⟩
  · rw [Nat.div_lt_iff_lt_mul hpE]
    omega
  · have haddr : E.addr = C.addr
        + (E.addr - C.addr) / 2 ^ (width C.v6 - E.len) * 2 ^ (width C.v6 - E.len) := by
      omega
    have hstep : (⟨C.v6, C.addr + (E.addr - C.addr) / 2 ^ (width C.v6 - E.len)
          * 2 ^ (width C.v6 - E.len), E.len⟩ : IpNet)
        = ⟨E.v6, E.addr, E.len⟩ := by
      rw [hf, hw, ← haddr]
    rw [hstep]

/-! ## Branch characterizations of the exclusion engine on a single pair -/

lemma exclude_single (p : IpNet) (ex : List IpNet) :
    exclude_subnets [p] ex = processPfx ex p := by
  unfold exclude_subnets
  cases h : processPfx ex p with
  | none => simp [List.mapM, List.mapM.loop, h]
  | some l => simp [List.mapM, List.mapM.loop, h]

lemma processPfx_drop {C E : IpNet} (h : E.contains C) :
    processPfx [E] C = some [] := by
  simp [processPfx, h]

lemma processPfx_keep {C E : IpNet} (h1 : ¬ E.contains C) (h2 : ¬ C.contains E) :
    processPfx [E] C = some [C] := by
  simp [processPfx, h1, h2]

lemma processPfx_split {C E : IpNet} (hc : C.contains E) (hnc : ¬ E.contains C)
    (hlen : C.len ≤ E.len) (hEw : E.len ≤ width C.v6) :
    processPfx [E] C
      = some ((subnetsList C E.len).filter (fun q => decide (q ≠ E))) := by
  unfold processPfx
  rw [if_neg hnc, if_pos hc]
  unfold IpNet.subnets
  rw [if_neg (by omega : ¬ (E.len < C.len ∨ width C.v6 < E.len))]
  rfl

/-! ## Nesting-or-disjoint for normalized nets -/

lemma inRange_div_eq {n : IpNet} (h : n.Normalized) {a : Nat} (ha : n.inRange a) :
    a / 2 ^ n.hostBits = n.addr / 2 ^ n.hostBits := by
  have hs := Nat.two_pow_pos n.hostBits
  rw [IpNet.inRange_iff h] at ha
  have hd : n.addr / 2 ^ n.hostBits * 2 ^ n.hostBits = n.addr :=
    Nat.div_mul_cancel (Nat.dvd_of_mod_eq_zero h)
  rw [div_interval hs, Nat.succ_mul]
  omega

lemma inRange_of_div_eq {n : IpNet} (h : n.Normalized) {a : Nat}
    (hd : a / 2 ^ n.hostBits = n.addr / 2 ^ n.hostBits) : n.inRange a := by
  have hs := Nat.two_pow_pos n.hostBits
  have he : n.addr / 2 ^ n.hostBits * 2 ^ n.hostBits = n.addr :=
    Nat.div_mul_cancel (Nat.dvd_of_mod_eq_zero h)
  rw [IpNet.inRange_iff h]
  have hb := (div_interval hs).mp hd
  rw [Nat.succ_mul] at hb
  omega

lemma contains_of_shared_point {C E : IpNet} (hCn : C.Normalized) (hEn : E.Normalized)
    (hf : C.v6 = E.v6) (hhb : E.hostBits ≤ C.hostBits) {a : Nat}
    (h1 : C.inRange a) (h2 : E.inRange a) : C.contains E := by
  have key : ∀ b, E.inRange b → C.inRange b := by
    intro b hb
    have hdE : b / 2 ^ E.hostBits = a / 2 ^ E.hostBits := by
      rw [inRange_div_eq hEn hb, inRange_div_eq hEn h2]
    have hdC : b / 2 ^ C.hostBits = a / 2 ^ C.hostBits := by
      have hsplit : 2 ^ C.hostBits = 2 ^ E.hostBits * 2 ^ (C.hostBits - E.hostBits) := by
        rw [← pow_add]
        congr 1
        omega
      rw [hsplit, ← Nat.div_div_eq_div_mul, ← Nat.div_div_eq_div_mul, hdE]
    exact inRange_of_div_eq hCn (hdC.trans (inRange_div_eq hCn h1))
  have hEaddr : E.inRange E.addr := by
    rw [IpNet.inRange_iff hEn]
    have := Nat.two_pow_pos E.hostBits
    omega
  have hEb : E.inRange E.broadcast := by
    unfold IpNet.broadcast
    rw [IpNet.inRange_iff hEn, IpNet.network_of_normalized hEn]
    have := Nat.two_pow_pos E.hostBits
    omega
  refine ⟨hf, ?_, ?_⟩
  · rw [IpNet.network_of_normalized hEn]
    exact (key E.addr hEaddr).1
  · exact (key E.broadcast hEb).2

lemma overlap_cases {C E : IpNet} (hCn : C.Normalized) (hEn : E.Normalized)
    {f : Bool} {a : Nat} (h1 : C.covers f a) (h2 : E.covers f a) :
    C.contains E ∨ E.contains C := by
  obtain ⟨hv1, hr1⟩ := h1
  obtain ⟨hv2, hr2⟩ := h2
  have hf : C.v6 = E.v6 := by rw [hv1, hv2]
  rcases Nat.le_total E.hostBits C.hostBits with hle | hle
  · exact .inl (contains_of_shared_point hCn hEn hf hle hr1 hr2)
  · exact .inr (contains_of_shared_point hEn hCn hf.symm hle hr2 hr1)

lemma length_filter_ne_of_mem {l : List IpNet} {e : IpNet} (hnd : l.Nodup)
    (he : e ∈ l) :
    (l.filter (fun q => decide (q ≠ e))).length = l.length - 1 := by
  induction l with
  | nil => cases he
  | cons x xs ih =>
    rcases List.mem_cons.mp he with heq | hxs
    · rw [List.filter_cons, if_neg (by simp [heq])]
      have hnotin : e ∉ xs := by
        intro hmem
        rw [heq] at hmem
        exact (List.nodup_cons.mp hnd).1 hmem
      rw [List.filter_eq_self.mpr ?_]
      · simp
      · intro q hq
        simp only [decide_eq_true_eq]
        rintro rfl
        exact hnotin hq
    · rw [List.filter_cons]
      have hx : x ≠ e := by
        rintro rfl
        exact (List.nodup_cons.mp hnd).1 hxs
      rw [if_pos (by simp [hx])]
      have hih := ih (List.nodup_cons.mp hnd).2 hxs
      have hpos : 0 < xs.length := List.length_pos.mpr (List.ne_nil_of_mem hxs)
      simp only [List.length_cons, hih]
      omega

/-- C3 amended: for valid normalized candidate C and excluded E, the engine
succeeds with a list of pairwise-disjoint prefixes none of which overlaps
E, whose union together with the overlap of C and E (all of E when E ⊆ C,
all of C when E strictly contains C, nothing when they are disjoint)
reconstructs exactly C's range; exclude(C, C) is empty and exclude(C, E)
for E disjoint from C is [C]. -/
theorem C3_exclusion_algebra (C E : IpNet) (hCv : C.Valid) (hEv : E.Valid)
    (hCn : C.Normalized) (hEn : E.Normalized) :
    ∃ r, exclude_subnets [C] [E] = some r
      ∧ r.Pairwise (fun q q' => ∀ f a, ¬ (q.covers f a ∧ q'.covers f a))
      ∧ (∀ q ∈ r, ∀ f a, ¬ (q.covers f a ∧ E.covers f a))
      ∧ (∀ f a, C.covers f a ↔ ((∃ q ∈ r, q.covers f a) ∨ (C.covers f a ∧ E.covers f a)))
      ∧ (E = C → r = [])
      ∧ ((∀ f a, ¬ (C.covers f a ∧ E.covers f a)) → r = [C]) := by
  rw [exclude_single]
  by_cases hec : E.contains C
  · refine ⟨[], by rw [processPfx_drop hec], List.Pairwise.nil, by simp, ?_,
      fun _ => rfl, ?_⟩
    · intro f a
      constructor
      · intro hc
        right
        refine ⟨hc, ?_⟩
        obtain ⟨hv, hr⟩ := hc
        exact ⟨hec.1.trans hv, hec.2.1.trans hr.1, hr.2.trans hec.2.2⟩
      · rintro (⟨q, hq, _⟩ | ⟨hc, _⟩)
        · cases hq
        · exact hc
    · intro hdisj
      exfalso
      have hCc : C.covers C.v6 C.network := by
        refine ⟨rfl, le_refl _, ?_⟩
        unfold IpNet.broadcast
        exact Nat.le_add_right _ _
      have hEc : E.covers C.v6 C.network :=
        ⟨hec.1, hec.2.1, hCc.2.2.trans hec.2.2⟩
      exact hdisj C.v6 C.network ⟨hCc, hEc⟩
  · by_cases hce : C.contains E
    · obtain ⟨hlen, hEw', kE, hkE, hEeq⟩ :=
        excluded_is_subnet hCn hEn hCv.1 hEv.1 hce hec
      have hmem : ∀ q, q ∈ (subnetsList C E.len).filter (fun q => decide (q ≠ E))
          ↔ ∃ k, k < 2 ^ (E.len - C.len) ∧ k ≠ kE
            ∧ q = ⟨C.v6, C.addr + k * 2 ^ (width C.v6 - E.len), E.len⟩ := by
        intro q
        rw [List.mem_filter, mem_subnetsList hCn]
        constructor
        · rintro ⟨⟨k, hk, rfl⟩, hne⟩
          refine ⟨k, hk, ?_, rfl⟩
          rintro rfl
          exact absurd hEeq.symm (of_decide_eq_true hne)
        · rintro ⟨k, hk, hkne, rfl⟩
          refine ⟨⟨k, hk, rfl⟩, decide_eq_true ?_⟩
          intro he
          exact hkne (subnet_inj (he.trans hEeq))
      refine ⟨_, by rw [processPfx_split hce hec hlen hEw'], ?_, ?_, ?_, ?_, ?_⟩
      · exact List.Pairwise.sublist (List.filter_sublist _)
          (subnetsList_pairwise_disjoint hCn hlen)
      · rintro q hq f a ⟨h1, h2⟩
        obtain ⟨k, hk, hkne, rfl⟩ := (hmem q).mp hq
        rw [hEeq] at h2
        exact hkne (subnet_inRange_unique hCn hlen h1.2 h2.2)
      · intro f a
        constructor
        · intro hc
          obtain ⟨hv, hr⟩ := hc
          obtain ⟨k, hk, hkr⟩ := subnet_of_inRange hCn hlen hEw' hr
          by_cases hkk : k = kE
          · subst hkk
            right
            refine ⟨⟨hv, hr⟩, ?_⟩
            rw [hEeq]
            exact ⟨hv, hkr⟩
          · exact .inl ⟨_, (hmem _).mpr ⟨k, hk, hkk, rfl⟩, ⟨hv, hkr⟩⟩
        · rintro (⟨q, hq, hqc⟩ | ⟨hc, _⟩)
          · obtain ⟨k, hk, hkne, rfl⟩ := (hmem q).mp hq
            exact ⟨hqc.1, subnet_sub_C hCn hlen hEw' hk hqc.2⟩
          · exact hc
      · intro heq
        exact (hec (by rw [heq]; exact IpNet.contains_self C)).elim
      · intro hdisj
        exfalso
        have hEc : E.covers E.v6 E.addr := by
          refine ⟨rfl, ?_⟩
          rw [IpNet.inRange_iff hEn]
          have := Nat.two_pow_pos E.hostBits
          omega
        have hCc : C.covers E.v6 E.addr := by
          refine ⟨hce.1, ?_⟩
          have hsub : (⟨C.v6, C.addr + kE * 2 ^ (width C.v6 - E.len), E.len⟩
              : IpNet).inRange E.addr := by
            rw [← hEeq]
            exact hEc.2
          exact subnet_sub_C hCn hlen hEw' hkE hsub
        exact hdisj E.v6 E.addr ⟨hCc, hEc⟩
    · refine ⟨[C], by rw [processPfx_keep hec hce], List.pairwise_singleton _ _,
        ?_, ?_, ?_, fun _ => rfl⟩
      · rintro q hq f a ⟨h1, h2⟩
        rw [List.mem_singleton] at hq
        subst hq
        rcases overlap_cases hCn hEn h1 h2 with h | h
        · exact hce h
        · exact hec h
      · intro f a
        constructor
        · intro hc
          exact .inl ⟨C, List.mem_singleton_self _, hc⟩
        · rintro (⟨q, hq, hqc⟩ | ⟨hc, _⟩)
          · rw [List.mem_singleton] at hq
            subst hq
            exact hqc
          · exact hc
      · intro heq
        exact (hec (by rw [heq]; exact IpNet.contains_self C)).elim

/-- C2 amended: for an excluded prefix strictly contained in the candidate,
the engine returns every subnet of the candidate at the excluded prefix's
mask length except the excluded prefix itself — an equal-sized covering of
the difference, not the minimal one — and the number of prefixes returned
is exactly 2 ^ (E.len - C.len) - 1. -/
theorem C2_full_split (C E : IpNet) (hCv : C.Valid) (hEv : E.Valid)
    (hCn : C.Normalized) (hEn : E.Normalized)
    (hce : C.contains E) (hec : ¬ E.contains C) :
    ∃ r, exclude_subnets [C] [E] = some r
      ∧ (∀ q, q ∈ r ↔ (q ∈ subnetsList C E.len ∧ q ≠ E))
      ∧ r.length = 2 ^ (E.len - C.len) - 1 := by
  obtain ⟨hlen, hEw', kE, hkE, hEeq⟩ :=
    excluded_is_subnet hCn hEn hCv.1 hEv.1 hce hec
  rw [exclude_single]
  refine ⟨_, by rw [processPfx_split hce hec hlen hEw'], ?_, ?_⟩
  · intro q
    simp [List.mem_filter]
  · have hmemE : E ∈ subnetsList C E.len := by
      rw [mem_subnetsList hCn]
      exact ⟨kE, hkE, hEeq⟩
    rw [length_filter_ne_of_mem (subnetsList_nodup C E.len) hmemE]
    unfold subnetsList
    rw [List.length_map, List.length_range]

theorem C3_exclusion_algebra_witness :
    ∃ r, exclude_subnets [⟨false, 0x0A000000, 8⟩] [⟨false, 0x0A050000, 16⟩] = some r
      ∧ r.Pairwise (fun q q' => ∀ f a, ¬ (q.covers f a ∧ q'.covers f a))
      ∧ (∀ q ∈ r, ∀ f a,
          ¬ (q.covers f a ∧ (⟨false, 0x0A050000, 16⟩ : IpNet).covers f a))
      ∧ (∀ f a, (⟨false, 0x0A000000, 8⟩ : IpNet).covers f a ↔
          ((∃ q ∈ r, q.covers f a) ∨ ((⟨false, 0x0A000000, 8⟩ : IpNet).covers f a
            ∧ (⟨false, 0x0A050000, 16⟩ : IpNet).covers f a)))
      ∧ ((⟨false, 0x0A050000, 16⟩ : IpNet) = ⟨false, 0x0A000000, 8⟩ → r = [])
      ∧ ((∀ f a, ¬ ((⟨false, 0x0A000000, 8⟩ : IpNet).covers f a
          ∧ (⟨false, 0x0A050000, 16⟩ : IpNet).covers f a))
        → r = [⟨false, 0x0A000000, 8⟩]) :=
  C3_exclusion_algebra ⟨false, 0x0A000000, 8⟩ ⟨false, 0x0A050000, 16⟩
    (by decide) (by decide) (by decide) (by decide)

theorem C2_full_split_witness :
    ∃ r, exclude_subnets [⟨false, 0x0A000000, 8⟩] [⟨false, 0x0A050000, 16⟩] = some r
      ∧ (∀ q, q ∈ r ↔
          (q ∈ subnetsList ⟨false, 0x0A000000, 8⟩ 16 ∧ q ≠ ⟨false, 0x0A050000, 16⟩))
      ∧ r.length = 2 ^ (16 - 8) - 1 :=
  C2_full_split ⟨false, 0x0A000000, 8⟩ ⟨false, 0x0A050000, 16⟩
    (by decide) (by decide) (by decide) (by decide) (by decide) (by decide)

end BgpScout
